import Mathlib

/-!
Verification of the `sure!` rewrite facility (src/lib.rs).

The source is a six-rule, syntax-directed expander.  We model it at two
levels, both translated directly from the source:

* a token-level model of the six rule signatures (for the dispatch
  exclusivity invariant), parameterised by the host language's committed
  expression/pattern parsers, which the source treats as opaque; and
* a fragment-level model of the expansion templates together with an
  evaluation semantics for the emitted code (two-arm discrimination,
  binding statement, diverging abort), used for the behavioural claims.
-/

namespace PrettySure

/-! ## Token-level model of the six rule signatures -/

/-- A host-language token tree: atoms, the separators that the rule
signatures inspect (`,`, `;`, `=>`, `let`, `=`), and bracketed groups
(a group is a single token tree). -/
inductive Tok where
  | ident : String → Tok
  | lit : Nat → Tok
  | comma : Tok
  | semi : Tok
  | fatArrow : Tok
  | letKw : Tok
  | eqTok : Tok
  | paren : List Tok → Tok
  | bracket : List Tok → Tok
  | brace : List Tok → Tok

/-- The six rule shapes of the expander, in source order. -/
inductive Rule where
  | r1 | r2 | r3 | r4 | r5 | r6
deriving DecidableEq

/-- The host language's committed fragment parsers.  `parseExpr ts`
(resp. `parsePat ts`) returns the consumed fragment and the remaining
tokens when a prefix of `ts` parses as an expression (resp. pattern);
the source relies on them as opaque, deterministic units. -/
structure Grammar where
  parseExpr : List Tok → Option (List Tok × List Tok)
  parsePat : List Tok → Option (List Tok × List Tok)

/-- Facts about the host grammar that the dispatch relies on: parsed
fragments are prefixes, pattern fragments are nonempty and contain no
top-level `;`, and no expression starts with the `let` keyword. -/
structure GrammarFacts (G : Grammar) : Prop where
  exprSound : ∀ ts t r, G.parseExpr ts = some (t, r) → ts = t ++ r
  patSound : ∀ ts p r, G.parsePat ts = some (p, r) → ts = p ++ r
  patNe : ∀ ts p r, G.parsePat ts = some (p, r) → p ≠ []
  patNoSemi : ∀ ts p r, G.parsePat ts = some (p, r) → Tok.semi ∉ p
  exprNoLet : ∀ rest, G.parseExpr (Tok.letKw :: rest) = none

/-- Signature of rule 1: `$target:expr, $p:pat => $res:expr; $else:expr`. -/
def matchesR1 (G : Grammar) (ts : List Tok) : Bool :=
  match G.parseExpr ts with
  | some (_, Tok.comma :: rest₁) =>
      match G.parsePat rest₁ with
      | some (_, Tok.fatArrow :: rest₂) =>
          match G.parseExpr rest₂ with
          | some (_, Tok.semi :: rest₃) =>
              match G.parseExpr rest₃ with
              | some (_, []) => true
              | _ => false
          | _ => false
      | _ => false
  | _ => false

/-- Signature of rule 2: `$target:expr, $p:pat => $res:expr`. -/
def matchesR2 (G : Grammar) (ts : List Tok) : Bool :=
  match G.parseExpr ts with
  | some (_, Tok.comma :: rest₁) =>
      match G.parsePat rest₁ with
      | some (_, Tok.fatArrow :: rest₂) =>
          match G.parseExpr rest₂ with
          | some (_, []) => true
          | _ => false
      | _ => false
  | _ => false

/-- Signature of rule 3: `$target:expr, $pat:tt; $else:expr` (the
pattern is a single token tree). -/
def matchesR3 (G : Grammar) (ts : List Tok) : Bool :=
  match G.parseExpr ts with
  | some (_, Tok.comma :: _ :: Tok.semi :: rest₂) =>
      match G.parseExpr rest₂ with
      | some (_, []) => true
      | _ => false
  | _ => false

/-- Signature of rule 4: `$target:expr, $pat:tt`. -/
def matchesR4 (G : Grammar) (ts : List Tok) : Bool :=
  match G.parseExpr ts with
  | some (_, [Tok.comma, _]) => true
  | _ => false

/-- Signature of rule 5: `let $pat:tt = $target:expr; $else:expr`. -/
def matchesR5 (G : Grammar) (ts : List Tok) : Bool :=
  match ts with
  | Tok.letKw :: _ :: Tok.eqTok :: rest =>
      match G.parseExpr rest with
      | some (_, Tok.semi :: rest₂) =>
          match G.parseExpr rest₂ with
          | some (_, []) => true
          | _ => false
      | _ => false
  | _ => false

/-- Signature of rule 6: `let $pat:tt = $target:expr`. -/
def matchesR6 (G : Grammar) (ts : List Tok) : Bool :=
  match ts with
  | Tok.letKw :: _ :: Tok.eqTok :: rest =>
      match G.parseExpr rest with
      | some (_, []) => true
      | _ => false
  | _ => false

/-- Whether an invocation token sequence matches a given rule shape. -/
def ruleMatches (G : Grammar) : Rule → List Tok → Bool
  | .r1, ts => matchesR1 G ts
  | .r2, ts => matchesR2 G ts
  | .r3, ts => matchesR3 G ts
  | .r4, ts => matchesR4 G ts
  | .r5, ts => matchesR5 G ts
  | .r6, ts => matchesR6 G ts

/-- Canonical committed classification of an invocation token sequence,
used to show the six signatures are mutually exclusive. -/
def classify (G : Grammar) (ts : List Tok) : Option Rule :=
  match ts with
  | Tok.letKw :: _ :: Tok.eqTok :: rest =>
      match G.parseExpr rest with
      | some (_, []) => some Rule.r6
      | some (_, Tok.semi :: rest₂) =>
          match G.parseExpr rest₂ with
          | some (_, []) => some Rule.r5
          | _ => none
      | _ => none
  | _ =>
      match G.parseExpr ts with
      | some (_, Tok.comma :: rest₁) =>
          match rest₁ with
          | [_] => some Rule.r4
          | _ :: Tok.semi :: rest₂ =>
              (match G.parseExpr rest₂ with
               | some (_, []) => some Rule.r3
               | _ => none)
          | _ =>
              match G.parsePat rest₁ with
              | some (_, Tok.fatArrow :: rest₂) =>
                  match G.parseExpr rest₂ with
                  | some (_, []) => some Rule.r2
                  | some (_, Tok.semi :: rest₃) =>
                      match G.parseExpr rest₃ with
                      | some (_, []) => some Rule.r1
                      | _ => none
                  | _ => none
              | _ => none
      | _ => none

/-! ## Fragment-level model of the expansion templates -/

/-- Emitted code fragments.  `frag s` is an opaque caller-supplied
expression fragment whose source text is `s`; `patExpr s` is a pattern
fragment re-emitted in expression position (the self-matching forms);
`matchE t p r e` is the two-arm discrimination `match t` with a first
arm binding pattern `p` and yielding `r` and a wildcard second arm
yielding `e`; `panicMsg m` is the diverging abort with diagnostic `m`;
`letS p init` is the binding statement `let p = init ;`. -/
inductive Code where
  | frag : String → Code
  | patExpr : String → Code
  | matchE : Code → String → Code → Code → Code
  | panicMsg : String → Code
  | letS : String → Code → Code

/-- An invocation of the expander, one constructor per rule shape:
`full` is `target, pat => res; else`, `noElse` drops the fallback,
`selfElse` is `target, pat; else` with a self-matching pattern,
`selfNoElse` drops its fallback, and `letElse`/`letNoElse` are the
binding forms `let pat = target [; else]`. -/
inductive Invocation where
  | full : Code → String → Code → Code → Invocation
  | noElse : Code → String → Code → Invocation
  | selfElse : Code → String → Code → Invocation
  | selfNoElse : Code → String → Invocation
  | letElse : String → Code → Code → Invocation
  | letNoElse : String → Code → Invocation

/-- Source text of a code fragment, as `stringify!` would render it. -/
def stringifyC : Code → String
  | .frag s => s
  | .patExpr s => s
  | .matchE t p r e =>
      "match " ++ stringifyC t ++ " . " ++ p ++ " => " ++ stringifyC r
        ++ ", _ => " ++ stringifyC e
  | .panicMsg m => m
  | .letS p i => "let " ++ p ++ " = " ++ stringifyC i ++ " ;"

/-- The default diagnostic text synthesized by rule 2:
`Expected <target-text> to match pattern: <pattern-text>`. -/
def defaultMsg (t : Code) (p : String) : String :=
  "Expected " ++ stringifyC t ++ " to match pattern: " ++ p

/-- The diverging abort synthesized by rule 2 as the default fallback. -/
def defaultPanic (t : Code) (p : String) : Code :=
  Code.panicMsg (defaultMsg t p)

/-- Which of the six rules an invocation shape is dispatched to. -/
def ruleOf : Invocation → Rule
  | .full _ _ _ _ => .r1
  | .noElse _ _ _ => .r2
  | .selfElse _ _ _ => .r3
  | .selfNoElse _ _ => .r4
  | .letElse _ _ _ => .r5
  | .letNoElse _ _ => .r6

/-- Termination measure for the recursive delegation of the rules. -/
def rank : Invocation → Nat
  | .full _ _ _ _ => 0
  | .noElse _ _ _ => 1
  | .selfElse _ _ _ => 1
  | .selfNoElse _ _ => 2
  | .letElse _ _ _ => 2
  | .letNoElse _ _ => 3

/-- The expander, transcribed rule by rule from the source.  Rule 1 is
the concrete template; rule 2 delegates to rule 1 with the diverging
default fallback; rules 3 and 4 delegate with the pattern re-emitted as
the result; the binding rules 5 and 6 wrap the delegated expansion as
the initializer of a `let` statement. -/
def expand : Invocation → Code
  | .full t p r e => .matchE t p r e
  | .noElse t p r => expand (.full t p r (defaultPanic t p))
  | .selfElse t p e => expand (.full t p (.patExpr p) e)
  | .selfNoElse t p => expand (.noElse t p (.patExpr p))
  | .letElse p t e => .letS p (expand (.selfElse t p e))
  | .letNoElse p t => .letS p (expand (.selfNoElse t p))
termination_by i => rank i
decreasing_by all_goals simp [rank]

/-- The sequence of rules visited while fully expanding an invocation,
following the same delegation steps as `expand`. -/
def chain : Invocation → List Rule
  | .full _ _ _ _ => [Rule.r1]
  | .noElse t p r => Rule.r2 :: chain (.full t p r (defaultPanic t p))
  | .selfElse t p e => Rule.r3 :: chain (.full t p (.patExpr p) e)
  | .selfNoElse t p => Rule.r4 :: chain (.noElse t p (.patExpr p))
  | .letElse p t e => Rule.r5 :: chain (.selfElse t p e)
  | .letNoElse p t => Rule.r6 :: chain (.selfNoElse t p)
termination_by i => rank i
decreasing_by all_goals simp [rank]

/-- Whether an emitted fragment is a binding statement rather than an
expression. -/
def isStmt : Code → Bool
  | .letS _ _ => true
  | _ => false

/-! ## Evaluation semantics for emitted code -/

/-- Result of evaluating emitted code: a value, or divergence with a
diagnostic (the model of `panic!` and of any caller-supplied diverging
fallback). -/
inductive Outcome (V : Type) where
  | ok : V → Outcome V
  | panic : String → Outcome V
deriving DecidableEq

/-- A binding environment: names bound to runtime values. -/
abbrev Env (V : Type) := List (String × V)

/-- Runtime meaning of the opaque caller-supplied fragments: the value
of an expression fragment (by source text, in an environment), the
bindings produced when a pattern fragment matches a value (`none` on
mismatch), and the value a pattern fragment re-builds when used in
expression position. -/
structure Sem (V : Type) where
  fragVal : String → Env V → Outcome V
  patMatch : String → V → Option (Env V)
  patBuild : String → Env V → Outcome V

/-- Evaluate emitted code in expression position, returning the list of
opaque fragments evaluated (in order) and the outcome.  The two-arm
discrimination evaluates the target once, then exactly one arm. -/
def eval {V : Type} (S : Sem V) : Code → Env V → List String × Outcome V
  | .frag s, env => ([s], S.fragVal s env)
  | .patExpr s, env => ([s], S.patBuild s env)
  | .panicMsg m, _ => ([], .panic m)
  | .letS _ _, _ => ([], .panic "let statement in expression position")
  | .matchE t p r e, env =>
      match eval S t env with
      | (tr, .panic m) => (tr, .panic m)
      | (tr, .ok v) =>
          match S.patMatch p v with
          | some benv =>
              let a := eval S r (benv ++ env)
              (tr ++ a.1, a.2)
          | none =>
              let a := eval S e env
              (tr ++ a.1, a.2)

/-- Evaluate emitted code in statement position: a binding statement
destructures its initializer's value and extends the environment; any
other fragment is evaluated and its value discarded. -/
def evalStmt {V : Type} (S : Sem V) (c : Code) (env : Env V) :
    List String × Outcome (Env V) :=
  match c with
  | .letS p init =>
      match eval S init env with
      | (tr, .panic m) => (tr, .panic m)
      | (tr, .ok v) =>
          match S.patMatch p v with
          | some benv => (tr, .ok (benv ++ env))
          | none => (tr, .panic ("binding pattern " ++ p ++ " failed to match"))
  | c' =>
      match eval S c' env with
      | (tr, .panic m) => (tr, .panic m)
      | (tr, .ok _) => (tr, .ok env)

/-- Modelled from the spec's words: the hand-written two-arm
discrimination `match target` whose first arm binds pattern `p` and
evaluates `res` under the bindings, and whose wildcard arm evaluates
`fb`.  This is the spec-side reference for the refinement claims and is
deliberately written independently of `expand`. -/
def handwrittenMatch {V : Type} (S : Sem V) (tgt : Code) (p : String)
    (res fb : Code) (env : Env V) : List String × Outcome V :=
  match eval S tgt env with
  | (tr, .panic m) => (tr, .panic m)
  | (tr, .ok v) =>
      match S.patMatch p v with
      | some benv =>
          let a := eval S res (benv ++ env)
          (tr ++ a.1, a.2)
      | none =>
          let a := eval S fb env
          (tr ++ a.1, a.2)

/-! ## Concrete instances used by the witnesses -/

/-- A tiny committed expression parser: consumes a single identifier or
literal token. -/
def toyParseExpr : List Tok → Option (List Tok × List Tok)
  | Tok.ident s :: rest => some ([Tok.ident s], rest)
  | Tok.lit n :: rest => some ([Tok.lit n], rest)
  | _ => none

/-- A tiny committed pattern parser: consumes a single identifier or
bracket group. -/
def toyParsePat : List Tok → Option (List Tok × List Tok)
  | Tok.ident s :: rest => some ([Tok.ident s], rest)
  | Tok.bracket g :: rest => some ([Tok.bracket g], rest)
  | _ => none

/-- A concrete host grammar built from the toy parsers. -/
def toyG : Grammar := ⟨toyParseExpr, toyParsePat⟩

/-- A concrete invocation token sequence: `x, [] `, the self-matching
no-fallback shape. -/
def ts₀ : List Tok := [Tok.ident "x", Tok.comma, Tok.bracket []]

/-- A concrete invocation of the no-fallback `=>` form. -/
def inv₀ : Invocation := Invocation.noElse (Code.frag "x") "p" (Code.frag "r")

/-- A concrete semantics in which the pattern never matches. -/
def semMiss : Sem Nat where
  fragVal s _ := if s = "t" then Outcome.ok 3 else Outcome.ok 7
  patMatch _ _ := none
  patBuild _ _ := Outcome.ok 0

/-- A second concrete semantics, still mismatching, whose target value
differs from that of `semMiss`. -/
def semMiss' : Sem Nat where
  fragVal _ _ := Outcome.ok 4
  patMatch _ _ := none
  patBuild _ _ := Outcome.ok 0

/-- A concrete semantics in which every pattern matches, binding the
name `a` to the matched value, and rebuilds the value `5` when used in
expression position. -/
def semBind : Sem Nat where
  fragVal _ _ := Outcome.ok 5
  patMatch _ v := some [("a", v)]
  patBuild _ _ := Outcome.ok 5

/-! ## Unfolding lemmas for the recursive expander -/

theorem expand_full (t : Code) (p : String) (r e : Code) :
    expand (.full t p r e) = Code.matchE t p r e := by
  simp [expand]

theorem expand_noElse (t : Code) (p : String) (r : Code) :
    expand (.noElse t p r) = Code.matchE t p r (defaultPanic t p) := by
  simp [expand]

theorem expand_selfElse (t : Code) (p : String) (e : Code) :
    expand (.selfElse t p e) = Code.matchE t p (Code.patExpr p) e := by
  simp [expand]

theorem expand_selfNoElse (t : Code) (p : String) :
    expand (.selfNoElse t p) = Code.matchE t p (Code.patExpr p) (defaultPanic t p) := by
  simp [expand]

theorem expand_letElse (p : String) (t e : Code) :
    expand (.letElse p t e) = Code.letS p (Code.matchE t p (Code.patExpr p) e) := by
  simp [expand]

theorem expand_letNoElse (p : String) (t : Code) :
    expand (.letNoElse p t)
      = Code.letS p (Code.matchE t p (Code.patExpr p) (defaultPanic t p)) := by
  simp [expand]

theorem chain_full (t : Code) (p : String) (r e : Code) :
    chain (.full t p r e) = [Rule.r1] := by
  simp [chain]

theorem chain_noElse (t : Code) (p : String) (r : Code) :
    chain (.noElse t p r) = [Rule.r2, Rule.r1] := by
  simp [chain]

theorem chain_selfElse (t : Code) (p : String) (e : Code) :
    chain (.selfElse t p e) = [Rule.r3, Rule.r1] := by
  simp [chain]

theorem chain_selfNoElse (t : Code) (p : String) :
    chain (.selfNoElse t p) = [Rule.r4, Rule.r2, Rule.r1] := by
  simp [chain]

theorem chain_letElse (p : String) (t e : Code) :
    chain (.letElse p t e) = [Rule.r5, Rule.r3, Rule.r1] := by
  simp [chain]

theorem chain_letNoElse (p : String) (t : Code) :
    chain (.letNoElse p t) = [Rule.r6, Rule.r4, Rule.r2, Rule.r1] := by
  simp [chain]

theorem eval_matchE {V : Type} (S : Sem V) (t : Code) (p : String) (r e : Code)
    (env : Env V) :
    eval S (Code.matchE t p r e) env =
      match eval S t env with
      | (tr, .panic m) => (tr, .panic m)
      | (tr, .ok v) =>
          match S.patMatch p v with
          | some benv => (tr ++ (eval S r (benv ++ env)).1, (eval S r (benv ++ env)).2)
          | none => (tr ++ (eval S e env).1, (eval S e env).2) := rfl

/-- C1: for every target, pattern, result and fallback, the expansion of
the full form `sure!(v, p => r; f)` evaluates exactly as the
hand-written two-arm discrimination with the same arms. -/
theorem full_form_refines_handwritten_match {V : Type} (S : Sem V) (t : Code)
    (p : String) (r e : Code) (env : Env V) :
    eval S (expand (.full t p r e)) env = handwrittenMatch S t p r e env := by
  rw [expand_full]
  rfl

/-- C7: the binding form `sure!(let p = v)` expands to exactly the
hand-written statement `let p = sure!(v, p);`, so it produces the same
bindings in the enclosing scope and diverges in the same way on
mismatch. -/
theorem let_form_equals_handwritten_let_binding {V : Type} (S : Sem V)
    (p : String) (t : Code) (env : Env V) :
    expand (.letNoElse p t) = Code.letS p (expand (.selfNoElse t p)) ∧
    evalStmt S (expand (.letNoElse p t)) env
      = evalStmt S (Code.letS p (expand (.selfNoElse t p))) env := by
  have h : expand (.letNoElse p t) = Code.letS p (expand (.selfNoElse t p)) := by
    rw [expand_letNoElse, expand_selfNoElse]
  exact ⟨h, by rw [h]⟩

/-- C5: every invocation of a non-concrete rule expands through a
finite, cycle-free delegation chain that ends at, and visits exactly
once, the concrete rule 1. -/
theorem delegation_reaches_concrete_rule_once (i : Invocation)
    (h : ruleOf i ≠ Rule.r1) :
    (chain i).getLast? = some Rule.r1 ∧ (chain i).count Rule.r1 = 1 ∧
      (chain i).Nodup := by
  cases i with
  | full t p r e => exact absurd rfl h
  | noElse t p r => rw [chain_noElse]; decide
  | selfElse t p e => rw [chain_selfElse]; decide
  | selfNoElse t p => rw [chain_selfNoElse]; decide
  | letElse p t e => rw [chain_letElse]; decide
  | letNoElse p t => rw [chain_letNoElse]; decide

theorem delegation_reaches_concrete_rule_once_witness :
    ruleOf inv₀ ≠ Rule.r1 ∧
      ((chain inv₀).getLast? = some Rule.r1 ∧ (chain inv₀).count Rule.r1 = 1 ∧
        (chain inv₀).Nodup) :=
  ⟨by decide, delegation_reaches_concrete_rule_once inv₀ (by decide)⟩

/-- C6 counterexample: the no-fallback binding form (rule 6) needs three
delegation hops (rule 6 to rule 4 to rule 2 to rule 1), so the claimed
two-hop bound is false at this invocation. -/
theorem two_hop_bound_counterexample :
    ¬ ((chain (Invocation.letNoElse "p" (Code.frag "x"))).length - 1 ≤ 2) := by
  rw [chain_letNoElse]
  decide

/-- C6 (amended): every invocation reaches the concrete rule 1 in at
most three delegation hops. -/
theorem delegation_at_most_three_hops (i : Invocation) :
    (chain i).length - 1 ≤ 3 := by
  cases i with
  | full t p r e => rw [chain_full]; decide
  | noElse t p r => rw [chain_noElse]; decide
  | selfElse t p e => rw [chain_selfElse]; decide
  | selfNoElse t p => rw [chain_selfNoElse]; decide
  | letElse p t e => rw [chain_letElse]; decide
  | letNoElse p t => rw [chain_letNoElse]; decide

/-! ## Mismatch behaviour of the expanded code -/

/-- C2: when the target value does not match the pattern, the expansion
of the full form evaluates exactly the fallback (its trace and outcome
are the target's followed by the fallback's); the result expression `r`
does not occur in the behaviour at all. -/
theorem mismatch_evaluates_fallback_only {V : Type} (S : Sem V) (t : Code)
    (ps : String) (r e : Code) (env : Env V) (tr : List String) (v : V)
    (h₁ : eval S t env = (tr, Outcome.ok v)) (h₂ : S.patMatch ps v = none) :
    eval S (expand (.full t ps r e)) env
      = (tr ++ (eval S e env).1, (eval S e env).2) := by
  rw [expand_full, eval_matchE, h₁]
  simp [h₂]

theorem mismatch_evaluates_fallback_only_witness :
    eval semMiss (Code.frag "t") [] = (["t"], Outcome.ok 3) ∧
    semMiss.patMatch "p" 3 = none ∧
    eval semMiss (expand (.full (Code.frag "t") "p" (Code.frag "r") (Code.frag "f"))) []
      = (["t"] ++ (eval semMiss (Code.frag "f") []).1,
         (eval semMiss (Code.frag "f") []).2) :=
  ⟨by decide, rfl,
   mismatch_evaluates_fallback_only semMiss (Code.frag "t") "p" (Code.frag "r")
     (Code.frag "f") [] ["t"] 3 (by decide) rfl⟩

theorem eval_selfMatch_mismatch {V : Type} (S : Sem V) (t : Code) (ps : String)
    (r : Code) (env : Env V) (tr : List String) (v : V)
    (h₁ : eval S t env = (tr, Outcome.ok v)) (h₂ : S.patMatch ps v = none) :
    eval S (Code.matchE t ps r (defaultPanic t ps)) env
      = (tr, Outcome.panic (defaultMsg t ps)) := by
  rw [eval_matchE, h₁]
  simp [h₂, defaultPanic, eval]

/-- Shared mismatch computation for the three no-fallback forms. -/
theorem noFallback_mismatch_core {V : Type} (S : Sem V)
    (ts ps : String) (r : Code) (env : Env V) (v : V)
    (h₁ : S.fragVal ts env = Outcome.ok v) (h₂ : S.patMatch ps v = none) :
    eval S (expand (.noElse (Code.frag ts) ps r)) env
      = ([ts], Outcome.panic ("Expected " ++ ts ++ " to match pattern: " ++ ps)) ∧
    eval S (expand (.selfNoElse (Code.frag ts) ps)) env
      = ([ts], Outcome.panic ("Expected " ++ ts ++ " to match pattern: " ++ ps)) ∧
    evalStmt S (expand (.letNoElse ps (Code.frag ts))) env
      = ([ts], Outcome.panic ("Expected " ++ ts ++ " to match pattern: " ++ ps)) := by
  have hfrag : eval S (Code.frag ts) env = ([ts], Outcome.ok v) := by
    simp [eval, h₁]
  have hcore := eval_selfMatch_mismatch S (Code.frag ts) ps (Code.patExpr ps) env [ts] v hfrag h₂
  have hr := eval_selfMatch_mismatch S (Code.frag ts) ps r env [ts] v hfrag h₂
  refine ⟨?_, ?_, ?_⟩
  · rw [expand_noElse]
    simpa [defaultMsg, stringifyC] using hr
  · rw [expand_selfNoElse]
    simpa [defaultMsg, stringifyC] using hcore
  · rw [expand_letNoElse]
    simp [evalStmt, hcore, defaultMsg, stringifyC]

/-- C3: with no fallback supplied (the three no-fallback forms), a
mismatching target diverges with the diagnostic
`Expected <target-text> to match pattern: <pattern-text>` built from the
literal source text of the target and of the pattern. -/
theorem no_fallback_mismatch_panics_with_default_message {V : Type} (S : Sem V)
    (ts ps : String) (r : Code) (env : Env V) (v : V)
    (h₁ : S.fragVal ts env = Outcome.ok v) (h₂ : S.patMatch ps v = none) :
    eval S (expand (.noElse (Code.frag ts) ps r)) env
      = ([ts], Outcome.panic ("Expected " ++ ts ++ " to match pattern: " ++ ps)) ∧
    eval S (expand (.selfNoElse (Code.frag ts) ps)) env
      = ([ts], Outcome.panic ("Expected " ++ ts ++ " to match pattern: " ++ ps)) ∧
    evalStmt S (expand (.letNoElse ps (Code.frag ts))) env
      = ([ts], Outcome.panic ("Expected " ++ ts ++ " to match pattern: " ++ ps)) :=
  noFallback_mismatch_core S ts ps r env v h₁ h₂

theorem no_fallback_mismatch_panics_with_default_message_witness :
    semMiss.fragVal "t" [] = Outcome.ok 3 ∧ semMiss.patMatch "p" 3 = none ∧
    (eval semMiss (expand (.noElse (Code.frag "t") "p" (Code.frag "r"))) []
       = (["t"], Outcome.panic ("Expected " ++ "t" ++ " to match pattern: " ++ "p")) ∧
     eval semMiss (expand (.selfNoElse (Code.frag "t") "p")) []
       = (["t"], Outcome.panic ("Expected " ++ "t" ++ " to match pattern: " ++ "p")) ∧
     evalStmt semMiss (expand (.letNoElse "p" (Code.frag "t"))) []
       = (["t"], Outcome.panic ("Expected " ++ "t" ++ " to match pattern: " ++ "p"))) :=
  ⟨by decide, rfl,
   no_fallback_mismatch_panics_with_default_message semMiss "t" "p" (Code.frag "r") [] 3
     (by decide) rfl⟩

/-- C10: the default diagnostic of the no-fallback forms is computed
solely from the invocation's source tokens: two runs with distinct
non-matching runtime target values (even under entirely different
semantics) produce character-for-character identical diagnostics. -/
theorem default_diagnostic_value_independent {V : Type} (S₁ S₂ : Sem V)
    (ts ps : String) (r : Code) (env₁ env₂ : Env V) (v₁ v₂ : V)
    (h₁ : S₁.fragVal ts env₁ = Outcome.ok v₁)
    (h₂ : S₂.fragVal ts env₂ = Outcome.ok v₂)
    (hne : v₁ ≠ v₂)
    (hm₁ : S₁.patMatch ps v₁ = none) (hm₂ : S₂.patMatch ps v₂ = none) :
    (eval S₁ (expand (.noElse (Code.frag ts) ps r)) env₁).2
      = Outcome.panic (defaultMsg (Code.frag ts) ps) ∧
    (eval S₁ (expand (.noElse (Code.frag ts) ps r)) env₁).2
      = (eval S₂ (expand (.noElse (Code.frag ts) ps r)) env₂).2 ∧
    (eval S₁ (expand (.selfNoElse (Code.frag ts) ps)) env₁).2
      = (eval S₂ (expand (.selfNoElse (Code.frag ts) ps)) env₂).2 ∧
    (evalStmt S₁ (expand (.letNoElse ps (Code.frag ts))) env₁).2
      = (evalStmt S₂ (expand (.letNoElse ps (Code.frag ts))) env₂).2 := by
  have c₁ := noFallback_mismatch_core S₁ ts ps r env₁ v₁ h₁ hm₁
  have c₂ := noFallback_mismatch_core S₂ ts ps r env₂ v₂ h₂ hm₂
  refine ⟨?_, ?_, ?_, ?_⟩
  · rw [c₁.1]; exact rfl
  · rw [c₁.1, c₂.1]
  · rw [c₁.2.1, c₂.2.1]
  · rw [c₁.2.2, c₂.2.2]

theorem default_diagnostic_value_independent_witness :
    semMiss.fragVal "t" [] = Outcome.ok 3 ∧ semMiss'.fragVal "t" [] = Outcome.ok 4 ∧
    (3 : Nat) ≠ 4 ∧
    ((eval semMiss (expand (.noElse (Code.frag "t") "p" (Code.frag "r"))) []).2
       = Outcome.panic (defaultMsg (Code.frag "t") "p") ∧
     (eval semMiss (expand (.noElse (Code.frag "t") "p" (Code.frag "r"))) []).2
       = (eval semMiss' (expand (.noElse (Code.frag "t") "p" (Code.frag "r"))) []).2 ∧
     (eval semMiss (expand (.selfNoElse (Code.frag "t") "p")) []).2
       = (eval semMiss' (expand (.selfNoElse (Code.frag "t") "p")) []).2 ∧
     (evalStmt semMiss (expand (.letNoElse "p" (Code.frag "t"))) []).2
       = (evalStmt semMiss' (expand (.letNoElse "p" (Code.frag "t"))) []).2) :=
  ⟨by decide, rfl, by decide,
   default_diagnostic_value_independent semMiss semMiss' "t" "p" (Code.frag "r") [] [] 3 4
     (by decide) rfl (by decide) rfl rfl⟩

/-! ## Single evaluation of the target -/

theorem count_patExpr_zero {V : Type} (S : Sem V) (ts ps : String) (hp : ps ≠ ts) :
    ∀ env', ((eval S (Code.patExpr ps) env').1.count ts) = 0 := by
  intro env'
  simp [eval, List.count_eq_zero]
  exact Ne.symm hp

theorem count_panicMsg_zero {V : Type} (S : Sem V) (ts m : String) (env : Env V) :
    ((eval S (Code.panicMsg m) env).1.count ts) = 0 := by
  simp [eval]

theorem count_matchE_once {V : Type} (S : Sem V) (ts ps : String) (rc ec : Code)
    (env : Env V)
    (hr : ∀ env', ((eval S rc env').1.count ts) = 0)
    (he : ((eval S ec env).1.count ts) = 0) :
    ((eval S (Code.matchE (Code.frag ts) ps rc ec) env).1.count ts) = 1 := by
  rw [eval_matchE]
  cases hfv : S.fragVal ts env with
  | panic m => simp [eval, hfv]
  | ok v =>
      cases hpm : S.patMatch ps v with
      | none => simp [eval, hfv, hpm, List.count_append, he]
      | some benv => simp [eval, hfv, hpm, List.count_append, hr]

theorem evalStmt_letS_trace {V : Type} (S : Sem V) (p : String) (init : Code)
    (env : Env V) :
    (evalStmt S (Code.letS p init) env).1 = (eval S init env).1 := by
  unfold evalStmt
  rcases h : eval S init env with ⟨tr, o⟩
  cases o with
  | panic m => simp [h]
  | ok v => cases hm : S.patMatch p v <;> simp [h, hm]

/-- C8: in every one of the six forms the target fragment is evaluated
exactly once at runtime: its source text occurs exactly once in the
evaluation trace, whichever arm runs — in particular the synthesized
diagnostics, which quote the target's text, add no second evaluation. -/
theorem target_evaluated_exactly_once {V : Type} (S : Sem V) (ts ps : String)
    (r e : Code) (env : Env V)
    (hr : ∀ env', ((eval S r env').1.count ts) = 0)
    (he : ∀ env', ((eval S e env').1.count ts) = 0)
    (hp : ps ≠ ts) :
    ((eval S (expand (.full (Code.frag ts) ps r e)) env).1.count ts = 1) ∧
    ((eval S (expand (.noElse (Code.frag ts) ps r)) env).1.count ts = 1) ∧
    ((eval S (expand (.selfElse (Code.frag ts) ps e)) env).1.count ts = 1) ∧
    ((eval S (expand (.selfNoElse (Code.frag ts) ps)) env).1.count ts = 1) ∧
    ((evalStmt S (expand (.letElse ps (Code.frag ts) e)) env).1.count ts = 1) ∧
    ((evalStmt S (expand (.letNoElse ps (Code.frag ts))) env).1.count ts = 1) := by
  have hpe := count_patExpr_zero S ts ps hp
  have hdp : ∀ (t : Code) (env' : Env V),
      ((eval S (defaultPanic t ps) env').1.count ts) = 0 :=
    fun t env' => count_panicMsg_zero S ts _ env'
  refine ⟨?_, ?_, ?_, ?_, ?_, ?_⟩
  · rw [expand_full]
    exact count_matchE_once S ts ps r e env hr (he env)
  · rw [expand_noElse]
    exact count_matchE_once S ts ps r _ env hr (hdp _ env)
  · rw [expand_selfElse]
    exact count_matchE_once S ts ps _ e env hpe (he env)
  · rw [expand_selfNoElse]
    exact count_matchE_once S ts ps _ _ env hpe (hdp _ env)
  · rw [expand_letElse, evalStmt_letS_trace]
    exact count_matchE_once S ts ps _ e env hpe (he env)
  · rw [expand_letNoElse, evalStmt_letS_trace]
    exact count_matchE_once S ts ps _ _ env hpe (hdp _ env)

theorem target_evaluated_exactly_once_witness :
    ("p" ≠ "t") ∧
    (((eval semMiss (expand (.full (Code.frag "t") "p" (Code.frag "r") (Code.frag "f"))) []).1.count "t" = 1) ∧
     ((eval semMiss (expand (.noElse (Code.frag "t") "p" (Code.frag "r"))) []).1.count "t" = 1) ∧
     ((eval semMiss (expand (.selfElse (Code.frag "t") "p" (Code.frag "f"))) []).1.count "t" = 1) ∧
     ((eval semMiss (expand (.selfNoElse (Code.frag "t") "p")) []).1.count "t" = 1) ∧
     ((evalStmt semMiss (expand (.letElse "p" (Code.frag "t") (Code.frag "f"))) []).1.count "t" = 1) ∧
     ((evalStmt semMiss (expand (.letNoElse "p" (Code.frag "t"))) []).1.count "t" = 1)) :=
  ⟨by decide,
   target_evaluated_exactly_once semMiss "t" "p" (Code.frag "r") (Code.frag "f") []
     (fun _ => rfl) (fun _ => rfl) (by decide)⟩

/-! ## The binding forms emit statements -/

/-- C9: the binding forms expand to a `let` statement (the non-binding
forms expand to expressions), and on a successful match the statement
introduces the pattern's bindings into the enclosing environment rather
than yielding a value. -/
theorem let_form_expands_to_statement {V : Type} (S : Sem V) (ps : String)
    (t r e : Code) (env : Env V) (tr : List String) (v v' : V) (benv benv' : Env V)
    (h₁ : eval S t env = (tr, Outcome.ok v))
    (h₂ : S.patMatch ps v = some benv)
    (h₃ : S.patBuild ps (benv ++ env) = Outcome.ok v')
    (h₄ : S.patMatch ps v' = some benv') :
    isStmt (expand (.letNoElse ps t)) = true ∧
    isStmt (expand (.letElse ps t e)) = true ∧
    isStmt (expand (.full t ps r e)) = false ∧
    isStmt (expand (.noElse t ps r)) = false ∧
    isStmt (expand (.selfElse t ps e)) = false ∧
    isStmt (expand (.selfNoElse t ps)) = false ∧
    evalStmt S (expand (.letNoElse ps t)) env = (tr ++ [ps], Outcome.ok (benv' ++ env)) := by
  have hinit : eval S (Code.matchE t ps (Code.patExpr ps) (defaultPanic t ps)) env
      = (tr ++ [ps], Outcome.ok v') := by
    rw [eval_matchE, h₁]
    simp [h₂, eval, h₃]
  refine ⟨?_, ?_, ?_, ?_, ?_, ?_, ?_⟩
  · rw [expand_letNoElse]; rfl
  · rw [expand_letElse]; rfl
  · rw [expand_full]; rfl
  · rw [expand_noElse]; rfl
  · rw [expand_selfElse]; rfl
  · rw [expand_selfNoElse]; rfl
  · rw [expand_letNoElse]
    simp [evalStmt, hinit, h₄]

theorem let_form_expands_to_statement_witness :
    eval semBind (Code.frag "t") [] = (["t"], Outcome.ok 5) ∧
    semBind.patMatch "p" 5 = some [("a", 5)] ∧
    semBind.patBuild "p" ([("a", 5)] ++ []) = Outcome.ok 5 ∧
    (isStmt (expand (.letNoElse "p" (Code.frag "t"))) = true ∧
     isStmt (expand (.letElse "p" (Code.frag "t") (Code.frag "f"))) = true ∧
     isStmt (expand (.full (Code.frag "t") "p" (Code.frag "r") (Code.frag "f"))) = false ∧
     isStmt (expand (.noElse (Code.frag "t") "p" (Code.frag "r"))) = false ∧
     isStmt (expand (.selfElse (Code.frag "t") "p" (Code.frag "f"))) = false ∧
     isStmt (expand (.selfNoElse (Code.frag "t") "p")) = false ∧
     evalStmt semBind (expand (.letNoElse "p" (Code.frag "t"))) []
       = (["t"] ++ ["p"], Outcome.ok ([("a", 5)] ++ []))) :=
  ⟨rfl, rfl, rfl,
   let_form_expands_to_statement semBind "p" (Code.frag "t") (Code.frag "r") (Code.frag "f")
     [] ["t"] 5 5 [("a", 5)] [("a", 5)] rfl rfl rfl rfl⟩

/-! ## Mutual exclusivity of the six rule signatures -/

theorem parsePat_not_single {G : Grammar} (F : GrammarFacts G) (x : Tok)
    (p q : List Tok) (h : G.parsePat [x] = some (p, Tok.fatArrow :: q)) : False := by
  have hs := F.patSound _ _ _ h
  have hne := F.patNe _ _ _ h
  cases p with
  | nil => exact hne rfl
  | cons a p' =>
      simp only [List.cons_append] at hs
      injection hs with h1 hs2
      simp at hs2

theorem parsePat_not_before_semi {G : Grammar} (F : GrammarFacts G) (x : Tok)
    (rest p q : List Tok)
    (h : G.parsePat (x :: Tok.semi :: rest) = some (p, Tok.fatArrow :: q)) : False := by
  have hs := F.patSound _ _ _ h
  have hne := F.patNe _ _ _ h
  have hns := F.patNoSemi _ _ _ h
  cases p with
  | nil => exact hne rfl
  | cons a p' =>
      cases p' with
      | nil =>
          simp only [List.cons_append, List.nil_append] at hs
          injection hs with h1 hs2
          injection hs2 with h2 hs3
          exact Tok.noConfusion h2
      | cons b p'' =>
          simp only [List.cons_append] at hs
          injection hs with h1 hs2
          injection hs2 with h2 hs3
          exact hns (by rw [← h2]; exact List.mem_cons_of_mem _ (List.mem_cons_self _ _))

theorem matchesR1_classify (G : Grammar) (F : GrammarFacts G) (ts : List Tok)
    (h : matchesR1 G ts = true) : classify G ts = some Rule.r1 := by
  unfold matchesR1 at h
  split at h
  · rename_i heq
    split at h
    · rename_i heq₂
      split at h
      · rename_i heq₃
        split at h
        · rename_i heq₄
          unfold classify
          split
          · rename_i tok tail
            rw [F.exprNoLet] at heq
            exact Option.noConfusion heq
          · simp only [heq]
            split
            · exact (parsePat_not_single F _ _ _ heq₂).elim
            · exact (parsePat_not_before_semi F _ _ _ _ heq₂).elim
            · simp [heq₂, heq₃, heq₄]
        · exact absurd h (by simp)
      · exact absurd h (by simp)
    · exact absurd h (by simp)
  · exact absurd h (by simp)

theorem matchesR2_classify (G : Grammar) (F : GrammarFacts G) (ts : List Tok)
    (h : matchesR2 G ts = true) : classify G ts = some Rule.r2 := by
  unfold matchesR2 at h
  split at h
  · rename_i heq
    split at h
    · rename_i heq₂
      split at h
      · rename_i heq₃
        unfold classify
        split
        · rename_i tok tail
          rw [F.exprNoLet] at heq
          exact Option.noConfusion heq
        · simp only [heq]
          split
          · exact (parsePat_not_single F _ _ _ heq₂).elim
          · exact (parsePat_not_before_semi F _ _ _ _ heq₂).elim
          · simp [heq₂, heq₃]
      · exact absurd h (by simp)
    · exact absurd h (by simp)
  · exact absurd h (by simp)

theorem matchesR3_classify (G : Grammar) (F : GrammarFacts G) (ts : List Tok)
    (h : matchesR3 G ts = true) : classify G ts = some Rule.r3 := by
  unfold matchesR3 at h
  split at h
  · rename_i heq
    split at h
    · rename_i heq₂
      unfold classify
      split
      · rename_i tok tail
        rw [F.exprNoLet] at heq
        exact Option.noConfusion heq
      · simp [heq, heq₂]
    · exact absurd h (by simp)
  · exact absurd h (by simp)

theorem matchesR4_classify (G : Grammar) (F : GrammarFacts G) (ts : List Tok)
    (h : matchesR4 G ts = true) : classify G ts = some Rule.r4 := by
  unfold matchesR4 at h
  split at h
  · rename_i heq
    unfold classify
    split
    · rename_i tok tail
      rw [F.exprNoLet] at heq
      exact Option.noConfusion heq
    · simp [heq]
  · exact absurd h (by simp)

theorem matchesR5_classify (G : Grammar) (ts : List Tok)
    (h : matchesR5 G ts = true) : classify G ts = some Rule.r5 := by
  unfold matchesR5 at h
  split at h
  · rename_i x rest
    split at h
    · rename_i heq
      split at h
      · rename_i heq₂
        simp [classify, heq, heq₂]
      · exact absurd h (by simp)
    · exact absurd h (by simp)
  · exact absurd h (by simp)

theorem matchesR6_classify (G : Grammar) (ts : List Tok)
    (h : matchesR6 G ts = true) : classify G ts = some Rule.r6 := by
  unfold matchesR6 at h
  split at h
  · rename_i x rest
    split at h
    · rename_i heq
      simp [classify, heq]
    · exact absurd h (by simp)
  · exact absurd h (by simp)

theorem ruleMatches_classify (G : Grammar) (F : GrammarFacts G) (ts : List Tok)
    (r : Rule) (h : ruleMatches G r ts = true) : classify G ts = some r := by
  cases r with
  | r1 => exact matchesR1_classify G F ts h
  | r2 => exact matchesR2_classify G F ts h
  | r3 => exact matchesR3_classify G F ts h
  | r4 => exact matchesR4_classify G F ts h
  | r5 => exact matchesR5_classify G ts h
  | r6 => exact matchesR6_classify G ts h

/-- C4: under the host-grammar facts, the six rule signatures are
mutually exclusive: an invocation token sequence accepted by the
dispatcher (matched by at least one rule) is matched by exactly one
rule, independently of the source's first-match ordering. -/
theorem rule_dispatch_unambiguous (G : Grammar) (F : GrammarFacts G) (ts : List Tok)
    (hacc : ∃ r, ruleMatches G r ts = true) :
    ∃! r, ruleMatches G r ts = true := by
  obtain ⟨r, hr⟩ := hacc
  refine ⟨r, hr, fun r' hr' => ?_⟩
  have h1 := ruleMatches_classify G F ts r hr
  have h2 := ruleMatches_classify G F ts r' hr'
  rw [h1] at h2
  exact (Option.some.inj h2).symm

theorem toyG_facts : GrammarFacts toyG := by
  refine ⟨?_, ?_, ?_, ?_, ?_⟩
  · intro ts t r h
    cases ts with
    | nil => simp [toyG, toyParseExpr] at h
    | cons tok rest =>
        cases tok <;> simp [toyG, toyParseExpr] at h <;> obtain ⟨h1, h2⟩ := h <;>
          subst h1 <;> subst h2 <;> simp
  · intro ts p r h
    cases ts with
    | nil => simp [toyG, toyParsePat] at h
    | cons tok rest =>
        cases tok <;> simp [toyG, toyParsePat] at h <;> obtain ⟨h1, h2⟩ := h <;>
          subst h1 <;> subst h2 <;> simp
  · intro ts p r h
    cases ts with
    | nil => simp [toyG, toyParsePat] at h
    | cons tok rest =>
        cases tok <;> simp [toyG, toyParsePat] at h <;> obtain ⟨h1, h2⟩ := h <;>
          subst h1 <;> subst h2 <;> simp
  · intro ts p r h
    cases ts with
    | nil => simp [toyG, toyParsePat] at h
    | cons tok rest =>
        cases tok <;> simp [toyG, toyParsePat] at h <;> obtain ⟨h1, h2⟩ := h <;>
          subst h1 <;> subst h2 <;> simp
  · intro rest
    rfl

theorem rule_dispatch_unambiguous_witness :
    (∃ r, ruleMatches toyG r ts₀ = true) ∧ (∃! r, ruleMatches toyG r ts₀ = true) :=
  ⟨⟨Rule.r4, by decide⟩,
   rule_dispatch_unambiguous toyG toyG_facts ts₀ ⟨Rule.r4, by decide⟩⟩

end PrettySure
